import Mathlib

/-!
# Linear-Transformations-OpenGL: a verification development for `src/Main.cpp`

The program opens a window, uploads one square mesh and, every frame, draws the
square untransformed in black and then once more for each arrow key that is held,
under a transformation matrix rebuilt from the identity.

Embedding conventions.

* Scalars (`float`) are modelled by exact rationals; a literal such as `0.6f` is
  the rational `0.6`.  Rounding of IEEE arithmetic is not modelled.
* `cos`, `sin` and `inversesqrt` are library functions on floats; they are carried
  in a record `MathFns` so that every definition stays computable.
* The OpenGL context and the GLFW window are one explicit `State` record that is
  threaded through the calls in program order.  A draw call appends a `Draw`
  (the uniforms in force when it is issued) to the back buffer.
* `glfwPollEvents` consumes a finite batch of events supplied by the environment;
  the render loop runs over a list of such batches, one per iteration.
-/

namespace LinearTransformations

/-! ## Vectors and matrices (GLM / GLSL value types) -/

/-- Three-component vector: `glm::vec3`, GLSL `vec3`. -/
structure Vec3 where
  x : ℚ
  y : ℚ
  z : ℚ
deriving DecidableEq, Repr

/-- Four-component vector: `glm::vec4`, GLSL `vec4`. -/
structure Vec4 where
  x : ℚ
  y : ℚ
  z : ℚ
  w : ℚ
deriving DecidableEq, Repr

namespace Vec3

/-- Vector times scalar, `v * k`. -/
def scale (v : Vec3) (k : ℚ) : Vec3 := ⟨v.x * k, v.y * k, v.z * k⟩

/-- Scalar times vector, `k * v`. -/
def lscale (k : ℚ) (v : Vec3) : Vec3 := ⟨k * v.x, k * v.y, k * v.z⟩

/-- Inner product, `glm::dot`. -/
def dot (a b : Vec3) : ℚ := a.x * b.x + a.y * b.y + a.z * b.z

end Vec3

namespace Vec4

/-- Component by index, `v[i]`. -/
def get (v : Vec4) : Fin 4 → ℚ
  | 0 => v.x
  | 1 => v.y
  | 2 => v.z
  | 3 => v.w

/-- Assignment to one component, `v[i] = a`. -/
def set (v : Vec4) (i : Fin 4) (a : ℚ) : Vec4 :=
  match i with
  | 0 => { v with x := a }
  | 1 => { v with y := a }
  | 2 => { v with z := a }
  | 3 => { v with w := a }

/-- Component-wise sum. -/
def add (a b : Vec4) : Vec4 := ⟨a.x + b.x, a.y + b.y, a.z + b.z, a.w + b.w⟩

/-- Vector times scalar, `v * k`. -/
def scale (v : Vec4) (k : ℚ) : Vec4 := ⟨v.x * k, v.y * k, v.z * k, v.w * k⟩

end Vec4

/-- Four by four matrix, `glm::mat4`, stored column by column: `m[i]` is column `i`
and `m[i][j]` is the entry in row `j` of column `i`. -/
structure Mat4 where
  c0 : Vec4
  c1 : Vec4
  c2 : Vec4
  c3 : Vec4
deriving DecidableEq, Repr

namespace Mat4

/-- Constructor `glm::mat4(d)`: `d` on the diagonal, zero elsewhere. -/
def diag (d : ℚ) : Mat4 :=
  ⟨⟨d, 0, 0, 0⟩, ⟨0, d, 0, 0⟩, ⟨0, 0, d, 0⟩, ⟨0, 0, 0, d⟩⟩

/-- The column `m[i]`. -/
def col (m : Mat4) : Fin 4 → Vec4
  | 0 => m.c0
  | 1 => m.c1
  | 2 => m.c2
  | 3 => m.c3

/-- Replace the column `m[i]`. -/
def setCol (m : Mat4) (i : Fin 4) (v : Vec4) : Mat4 :=
  match i with
  | 0 => { m with c0 := v }
  | 1 => { m with c1 := v }
  | 2 => { m with c2 := v }
  | 3 => { m with c3 := v }

/-- The C++ expression `m[i][j]`: column `i`, then component `j`. -/
def get (m : Mat4) (i j : Fin 4) : ℚ := (m.col i).get j

/-- The C++ assignment `m[i][j] = a`. -/
def set (m : Mat4) (i j : Fin 4) (a : ℚ) : Mat4 := m.setCol i ((m.col i).set j a)

/-- Mathematical entry in row `r`, column `c` of the matrix that acts as `M · v`. -/
def entry (m : Mat4) (r c : Fin 4) : ℚ := m.get c r

/-- Matrix times column vector, GLSL `m * v`. -/
def mulVec (m : Mat4) (v : Vec4) : Vec4 :=
  ((m.c0.scale v.x).add (m.c1.scale v.y)).add ((m.c2.scale v.z).add (m.c3.scale v.w))

end Mat4

/-! ## The parts of GLM used by the program -/

/-- The float library functions GLM calls for `glm::rotate`. -/
structure MathFns where
  cos : ℚ → ℚ
  sin : ℚ → ℚ
  inversesqrt : ℚ → ℚ

/-- Degrees to radians, `glm::radians`: multiplication by GLM's constant for pi / 180. -/
def radians (degrees : ℚ) : ℚ := degrees * 0.01745329251994329576923690768489

/-- Unit vector, `glm::normalize`: `v * inversesqrt(dot(v, v))`. -/
def normalize (fm : MathFns) (v : Vec3) : Vec3 := v.scale (fm.inversesqrt (v.dot v))

/-- Translation, `glm::translate(m, v)`: only column 3 changes. -/
def translate (m : Mat4) (v : Vec3) : Mat4 :=
  { m with c3 := (((m.c0.scale v.x).add (m.c1.scale v.y)).add (m.c2.scale v.z)).add m.c3 }

/-- Scaling, `glm::scale(m, v)`: columns 0, 1, 2 are multiplied by the components of `v`. -/
def scale (m : Mat4) (v : Vec3) : Mat4 :=
  ⟨m.c0.scale v.x, m.c1.scale v.y, m.c2.scale v.z, m.c3⟩

/-- Rotation, `glm::rotate(m, angle, v)`, following GLM's `matrix_transform` code. -/
def rotate (fm : MathFns) (m : Mat4) (angle : ℚ) (v : Vec3) : Mat4 :=
  let c := fm.cos angle
  let s := fm.sin angle
  let axis := normalize fm v
  let temp := Vec3.lscale (1 - c) axis
  let r00 := c + temp.x * axis.x
  let r01 := temp.x * axis.y + s * axis.z
  let r02 := temp.x * axis.z - s * axis.y
  let r10 := temp.y * axis.x - s * axis.z
  let r11 := c + temp.y * axis.y
  let r12 := temp.y * axis.z + s * axis.x
  let r20 := temp.z * axis.x + s * axis.y
  let r21 := temp.z * axis.y - s * axis.x
  let r22 := c + temp.z * axis.z
  ⟨((m.c0.scale r00).add (m.c1.scale r01)).add (m.c2.scale r02),
   ((m.c0.scale r10).add (m.c1.scale r11)).add (m.c2.scale r12),
   ((m.c0.scale r20).add (m.c1.scale r21)).add (m.c2.scale r22),
   m.c3⟩

/-! ## Shaders -/

/-- The vertex shader: `gl_Position = transform * vec4(aPos, 1.0)`. -/
def vertexShader (transform : Mat4) (aPos : Vec3) : Vec4 :=
  transform.mulVec ⟨aPos.x, aPos.y, aPos.z, 1⟩

/-- The fragment shader: `FragColor = color`. -/
def fragmentShader (color : Vec4) : Vec4 := color

/-! ## Window and context state -/

/-- One `glDrawElements` call, recorded with the uniforms in force when it was issued. -/
structure Draw where
  transform : Mat4
  color : Vec4
  count : Nat
deriving DecidableEq, Repr

/-- Contents of a colour buffer: the clear colour and the draws issued since the clear. -/
structure Frame where
  background : Vec4
  draws : List Draw
deriving DecidableEq, Repr

/-- Viewport rectangle as passed to `glViewport`. -/
structure Viewport where
  x : Int
  y : Int
  width : Int
  height : Int
deriving DecidableEq, Repr

/-- The window and the OpenGL context. -/
structure State where
  /-- GLFW close flag of the window. -/
  shouldClose : Bool
  /-- Last reported state of each key, by GLFW key code (`true` is pressed). -/
  keys : Nat → Bool
  viewport : Viewport
  clearColor : Vec4
  lineWidth : ℚ
  wireframe : Bool
  /-- Whether the shader program is current (`glUseProgram`). -/
  programInUse : Bool
  /-- Whether the vertex array object is bound (`glBindVertexArray`). -/
  vaoBound : Bool
  /-- Contents of the vertex buffer: the `float vertices[]` array. -/
  vertices : List ℚ
  /-- Contents of the element buffer: the `unsigned int indices[]` array. -/
  indices : List Nat
  /-- Uniform `transform` of the shader program. -/
  transform : Mat4
  /-- Uniform `color` of the shader program. -/
  color : Vec4
  /-- The buffer being drawn into. -/
  backBuffer : Frame
  /-- The buffers shown so far, oldest first (`glfwSwapBuffers`). -/
  presented : List Frame

/-! ### GLFW constants (from `GLFW/glfw3.h`) -/

def GLFW_RELEASE : Nat := 0
def GLFW_PRESS : Nat := 1
def GLFW_KEY_ESCAPE : Nat := 256
def GLFW_KEY_RIGHT : Nat := 262
def GLFW_KEY_LEFT : Nat := 263
def GLFW_KEY_DOWN : Nat := 264
def GLFW_KEY_UP : Nat := 265

/-! ### Library calls, as state transformers -/

/-- Key query `glfwGetKey`: the last reported state of `key`. -/
def glfwGetKey (s : State) (key : Nat) : Nat :=
  if s.keys key then GLFW_PRESS else GLFW_RELEASE

/-- Close-flag query `glfwWindowShouldClose`. -/
def glfwWindowShouldClose (s : State) : Bool := s.shouldClose

/-- Close-flag assignment `glfwSetWindowShouldClose`. -/
def glfwSetWindowShouldClose (s : State) (value : Bool) : State :=
  { s with shouldClose := value }

/-- Viewport assignment `glViewport`: the rectangle the program asks for.  What the
driver does with a request it rejects or clamps is outside the program. -/
def glViewport (s : State) (x y width height : Int) : State :=
  { s with viewport := ⟨x, y, width, height⟩ }

/-- Clear-colour assignment `glClearColor`. -/
def glClearColor (s : State) (r g b a : ℚ) : State :=
  { s with clearColor := ⟨r, g, b, a⟩ }

/-- Call `glClear(GL_COLOR_BUFFER_BIT)`: the back buffer becomes the clear colour. -/
def glClear (s : State) : State :=
  { s with backBuffer := ⟨s.clearColor, []⟩ }

/-- Line-width assignment `glLineWidth`. -/
def glLineWidth (s : State) (width : ℚ) : State :=
  { s with lineWidth := width }

/-- Call `glUseProgram(shaderProgram)`. -/
def glUseProgram (s : State) : State :=
  { s with programInUse := true }

/-- Call `glBindVertexArray(VAO)`. -/
def glBindVertexArray (s : State) : State :=
  { s with vaoBound := true }

/-- Upload of the `transform` uniform: `glUniformMatrix4fv(loc, 1, GL_FALSE, value_ptr(m))`.
With `GL_FALSE` the sixteen floats are taken column by column, as GLM stores them.
The call sets a uniform of the current program and is an error without one. -/
def glUniformMatrix4fv (s : State) (m : Mat4) : State :=
  if s.programInUse then { s with transform := m } else s

/-- Upload of the `color` uniform: `glUniform4f(loc, r, g, b, a)`. -/
def glUniform4f (s : State) (r g b a : ℚ) : State :=
  if s.programInUse then { s with color := ⟨r, g, b, a⟩ } else s

/-- Call `glDrawElements(GL_TRIANGLES, count, GL_UNSIGNED_INT, 0)`: with a program
current and the vertex array bound, `count` indices are drawn with the uniforms
as they are now. -/
def glDrawElements (s : State) (count : Nat) : State :=
  if s.programInUse && s.vaoBound then
    { s with backBuffer :=
        ⟨s.backBuffer.background, s.backBuffer.draws ++ [⟨s.transform, s.color, count⟩]⟩ }
  else s

/-- Call `glfwSwapBuffers`: the back buffer is shown. -/
def glfwSwapBuffers (s : State) : State :=
  { s with presented := s.presented ++ [s.backBuffer] }

/-! ## The program -/

/-- The array `float vertices[]` of `main`. -/
def vertices : List ℚ :=
  [ 0.2,  0.2, 0.0,
    0.2, -0.2, 0.0,
   -0.2, -0.2, 0.0,
   -0.2,  0.2, 0.0]

/-- The array `unsigned int indices[]` of `main`. -/
def indices : List Nat :=
  [0, 1, 3,
   1, 2, 3]

/-- Attribute 0 as configured by `glVertexAttribPointer(0, 3, GL_FLOAT, GL_FALSE,
3 * sizeof(float), 0)`: vertex `i` is the three floats starting at offset `3 * i`. -/
def vertexAt (buffer : List ℚ) (i : Nat) : Vec3 :=
  ⟨buffer.getD (3 * i) 0, buffer.getD (3 * i + 1) 0, buffer.getD (3 * i + 2) 0⟩

/-- Function `framebuffer_size_callback(window, width, height)`. -/
def framebuffer_size_callback (s : State) (width height : Int) : State :=
  glViewport s 0 0 width height

/-- Function `processInput(window, shaderProgram)`. -/
def processInput (fm : MathFns) (s : State) : State :=
  let s :=
    if glfwGetKey s GLFW_KEY_ESCAPE == GLFW_PRESS then glfwSetWindowShouldClose s true else s
  let s :=
    if glfwGetKey s GLFW_KEY_RIGHT == GLFW_PRESS then
      let transform := Mat4.diag 1
      let transform := translate transform ⟨0.6, 0.0, 0.0⟩
      let s := glUniformMatrix4fv s transform
      let s := glUniform4f s 0.0 0.0 1.0 1.0
      glDrawElements s 6
    else s
  let s :=
    if glfwGetKey s GLFW_KEY_DOWN == GLFW_PRESS then
      let transform := Mat4.diag 1
      let transform := rotate fm transform (radians 45.0) ⟨0.0, 0.0, 1.0⟩
      let s := glUniformMatrix4fv s transform
      let s := glUniform4f s 1.0 0.0 0.0 0.0
      glDrawElements s 6
    else s
  let s :=
    if glfwGetKey s GLFW_KEY_LEFT == GLFW_PRESS then
      let transform := Mat4.diag 1
      let transform := scale transform ⟨1.5, 1.5, 1.0⟩
      let s := glUniformMatrix4fv s transform
      let s := glUniform4f s 0.0 1.0 0.0 1.0
      glDrawElements s 6
    else s
  if glfwGetKey s GLFW_KEY_UP == GLFW_PRESS then
    let transform := Mat4.diag 1
    let transform := transform.set 1 0 0.5
    let transform := transform.set 0 1 0.2
    let s := glUniformMatrix4fv s transform
    let s := glUniform4f s 0.5 0.0 0.5 1.0
    glDrawElements s 6
  else s

/-- The loop body of `main` before the call of `processInput`: clear to the
background colour and draw the reference square. -/
def drawReference (s : State) : State :=
  let s := glClearColor s 0.1 0.4 0.3 1.0
  let s := glClear s
  let s := glLineWidth s 4.0
  let s := glUseProgram s
  let s := glBindVertexArray s
  let transform := Mat4.diag 1.0
  let s := glUniformMatrix4fv s transform
  let s := glUniform4f s 0.0 0.0 0.0 1.0
  glDrawElements s 6

/-- The rendering part of one loop iteration: the reference draw, then `processInput`. -/
def renderFrame (fm : MathFns) (s : State) : State :=
  processInput fm (drawReference s)

/-- The draw calls of one frame, in the order they are issued. -/
def frameDraws (fm : MathFns) (s : State) : List Draw :=
  (renderFrame fm s).backBuffer.draws

/-- The draw calls that `processInput` issues within one frame: those of the frame
after the ones already in the back buffer when `processInput` is called. -/
def inputDraws (fm : MathFns) (s : State) : List Draw :=
  (frameDraws fm s).drop (drawReference s).backBuffer.draws.length

/-- An event delivered by the window system. -/
inductive Event where
  /-- A key went down (`true`) or up (`false`). -/
  | key (code : Nat) (pressed : Bool)
  /-- The user asked to close the window. -/
  | close
  /-- The framebuffer was resized. -/
  | framebufferSize (width height : Int)
deriving DecidableEq, Repr

/-- What GLFW does with one event: it records key changes, raises the close flag on
a close request (no close callback is installed) and runs the installed
framebuffer-size callback. -/
def handleEvent (s : State) : Event → State
  | .key code pressed => { s with keys := fun k => if k = code then pressed else s.keys k }
  | .close => glfwSetWindowShouldClose s true
  | .framebufferSize width height => framebuffer_size_callback s width height

/-- Call `glfwPollEvents`: every pending event is handled, in order. -/
def glfwPollEvents (s : State) (events : List Event) : State :=
  events.foldl handleEvent s

/-- One full iteration of the render loop of `main`. -/
def loopBody (fm : MathFns) (s : State) (events : List Event) : State :=
  glfwPollEvents (glfwSwapBuffers (renderFrame fm s)) events

/-- The render loop `while (!glfwWindowShouldClose(window)) ...`, run against the
event batches the environment delivers, one batch per `glfwPollEvents`.  The run
ends when the flag is seen set or when the batches are used up. -/
def renderLoop (fm : MathFns) : State → List (List Event) → State
  | s, [] => s
  | s, events :: rest =>
    if glfwWindowShouldClose s then s else renderLoop fm (loopBody fm s events) rest

/-- The state on entry to the render loop: a 950 by 950 window, buffers uploaded,
wireframe mode, nothing bound, no key down. -/
def initState : State where
  shouldClose := false
  keys := fun _ => false
  viewport := ⟨0, 0, 950, 950⟩
  clearColor := ⟨0, 0, 0, 0⟩
  lineWidth := 1
  wireframe := true
  programInUse := false
  vaoBound := false
  vertices := vertices
  indices := indices
  transform := Mat4.diag 0
  color := ⟨0, 0, 0, 0⟩
  backBuffer := ⟨⟨0, 0, 0, 0⟩, []⟩
  presented := []

/-! ## Decomposition of `processInput` into its five branches -/

/-- The first statement of `processInput`: the ESCAPE check. -/
def escapeBranch (s : State) : State :=
  if glfwGetKey s GLFW_KEY_ESCAPE == GLFW_PRESS then glfwSetWindowShouldClose s true else s

/-- The common shape of the four arrow-key statements of `processInput`: when `key`
is pressed, upload matrix and colour and draw. -/
def arrowBranch (key : Nat) (m : Mat4) (r g b a : ℚ) (s : State) : State :=
  if glfwGetKey s key == GLFW_PRESS then
    glDrawElements (glUniform4f (glUniformMatrix4fv s m) r g b a) 6
  else s

/-! ## Vocabulary for the frame properties -/

/-- The reference draw of every frame: identity matrix, black. -/
def referenceDraw : Draw := ⟨Mat4.diag 1, ⟨0, 0, 0, 1⟩, 6⟩

/-- The draw issued by the RIGHT branch of `processInput`. -/
def rightDraw : Draw := ⟨translate (Mat4.diag 1) ⟨0.6, 0, 0⟩, ⟨0, 0, 1, 1⟩, 6⟩

/-- The draw issued by the DOWN branch of `processInput`. -/
def downDraw (fm : MathFns) : Draw :=
  ⟨rotate fm (Mat4.diag 1) (radians 45) ⟨0, 0, 1⟩, ⟨1, 0, 0, 0⟩, 6⟩

/-- The draw issued by the LEFT branch of `processInput`. -/
def leftDraw : Draw := ⟨scale (Mat4.diag 1) ⟨1.5, 1.5, 1⟩, ⟨0, 1, 0, 1⟩, 6⟩

/-- The draw issued by the UP branch of `processInput`. -/
def upDraw : Draw := ⟨((Mat4.diag 1).set 1 0 0.5).set 0 1 0.2, ⟨0.5, 0, 0.5, 1⟩, 6⟩

/-- The four keys `processInput` reacts to with a draw, in the order it checks them. -/
def arrowKeys : List Nat := [GLFW_KEY_RIGHT, GLFW_KEY_DOWN, GLFW_KEY_LEFT, GLFW_KEY_UP]

/-- The arrow keys that are held in `s`, in check order. -/
def heldArrows (s : State) : List Nat := arrowKeys.filter (fun k => s.keys k)

/-- The draw of the branch that checks arrow key `k`. -/
def arrowDraw (fm : MathFns) (k : Nat) : Draw :=
  if k = GLFW_KEY_RIGHT then rightDraw
  else if k = GLFW_KEY_DOWN then downDraw fm
  else if k = GLFW_KEY_LEFT then leftDraw
  else upDraw

/-- The entry of the four by four identity matrix in row `r`, column `c`. -/
def identityEntry (r c : Fin 4) : ℚ := if r = c then 1 else 0

/-! ## Concrete inputs for running the program -/

/-- A computable stand-in for the float library, used to run the program on concrete
inputs: short Taylor polynomials for `cos` and `sin`, and one Newton step from 1
for `inversesqrt`. -/
def sampleMath : MathFns where
  cos := fun a => 1 - a ^ 2 / 2 + a ^ 4 / 24
  sin := fun a => a - a ^ 3 / 6 + a ^ 5 / 120
  inversesqrt := fun x => (3 - x) / 2

/-- The state on entry to the loop, but with exactly the keys in `held` down. -/
def holding (held : List Nat) : State :=
  { initState with keys := fun k => held.contains k }

/-! ## Plane geometry for the mesh -/

/-- Difference of two points. -/
def Vec3.sub (a b : Vec3) : Vec3 := ⟨a.x - b.x, a.y - b.y, a.z - b.z⟩

/-- Squared Euclidean distance between two points. -/
def distSq (a b : Vec3) : ℚ := (a.sub b).dot (a.sub b)

/-- Vertex `i` of the uploaded mesh. -/
def meshVertex (i : Nat) : Vec3 := vertexAt vertices i

/-- Primitive assembly for `GL_TRIANGLES`: consecutive index triples. -/
def triangleList : List Nat → List (Nat × Nat × Nat)
  | a :: b :: c :: rest => (a, b, c) :: triangleList rest
  | _ => []

/-- Edge function of the directed edge from `a` to `b` at `p` in the xy-plane: twice
the signed area of the triangle `a b p`. -/
def edgeFn (a b p : Vec3) : ℚ :=
  (b.x - a.x) * (p.y - a.y) - (b.y - a.y) * (p.x - a.x)

/-- Area of the triangle `a b c` in the xy-plane. -/
def triangleArea (a b c : Vec3) : ℚ := |edgeFn a b c| / 2

/-- Point `p` lies in the closed triangle `a b c` (either orientation). -/
def inTriangle (a b c p : Vec3) : Prop :=
  (0 ≤ edgeFn a b p ∧ 0 ≤ edgeFn b c p ∧ 0 ≤ edgeFn c a p) ∨
  (edgeFn a b p ≤ 0 ∧ edgeFn b c p ≤ 0 ∧ edgeFn c a p ≤ 0)

/-- Point `p` lies strictly inside the triangle `a b c` (either orientation). -/
def inInterior (a b c p : Vec3) : Prop :=
  (0 < edgeFn a b p ∧ 0 < edgeFn b c p ∧ 0 < edgeFn c a p) ∨
  (edgeFn a b p < 0 ∧ edgeFn b c p < 0 ∧ edgeFn c a p < 0)

/-- Point `p` lies in the closed axis-aligned square of the given side centred at
the origin of the xy-plane. -/
def inCentredSquare (side : ℚ) (p : Vec3) : Prop :=
  |p.x| ≤ side / 2 ∧ |p.y| ≤ side / 2

instance (a b c p : Vec3) : Decidable (inTriangle a b c p) := by
  unfold inTriangle; infer_instance

instance (a b c p : Vec3) : Decidable (inInterior a b c p) := by
  unfold inInterior; infer_instance

instance (side : ℚ) (p : Vec3) : Decidable (inCentredSquare side p) := by
  unfold inCentredSquare; infer_instance

/-! ## Lemmas -/

theorem drawReference_draws (s : State) :
    (drawReference s).backBuffer.draws = [referenceDraw] := by
  simp [drawReference, glDrawElements, glUniform4f, glUniformMatrix4fv, glBindVertexArray,
    glUseProgram, glLineWidth, glClear, glClearColor, referenceDraw]
  norm_num

theorem drawReference_keys (s : State) : (drawReference s).keys = s.keys := by
  simp [drawReference, glDrawElements, glUniform4f, glUniformMatrix4fv, glBindVertexArray,
    glUseProgram, glLineWidth, glClear, glClearColor]

theorem drawReference_bound (s : State) :
    (drawReference s).programInUse = true ∧ (drawReference s).vaoBound = true := by
  simp [drawReference, glDrawElements, glUniform4f, glUniformMatrix4fv, glBindVertexArray,
    glUseProgram, glLineWidth, glClear, glClearColor]

theorem glfwGetKey_press (s : State) (key : Nat) :
    (glfwGetKey s key == GLFW_PRESS) = s.keys key := by
  unfold glfwGetKey
  cases s.keys key <;> rfl

/-- The ESCAPE branch of `processInput`. -/
theorem escape_branch (s : State) :
    escapeBranch s = { s with shouldClose := s.keys GLFW_KEY_ESCAPE || s.shouldClose } := by
  unfold escapeBranch
  rw [glfwGetKey_press]
  cases h : s.keys GLFW_KEY_ESCAPE <;> simp [glfwSetWindowShouldClose]

/-- An arrow-key branch of `processInput` run with the program current and the
vertex array bound: uniforms are assigned and one draw is appended when the key is
held, and nothing happens otherwise. -/
theorem arrow_branch (key : Nat) (m : Mat4) (r g b a : ℚ) (s : State)
    (hp : s.programInUse = true) (hv : s.vaoBound = true) :
    arrowBranch key m r g b a s =
      if s.keys key then
        { s with
          transform := m
          color := ⟨r, g, b, a⟩
          backBuffer := ⟨s.backBuffer.background, s.backBuffer.draws ++ [⟨m, ⟨r, g, b, a⟩, 6⟩]⟩ }
      else s := by
  unfold arrowBranch
  rw [glfwGetKey_press]
  cases h : s.keys key <;>
    simp [glDrawElements, glUniform4f, glUniformMatrix4fv, hp, hv]

theorem arrow_branch_keys (key : Nat) (m : Mat4) (r g b a : ℚ) (s : State) :
    (arrowBranch key m r g b a s).keys = s.keys := by
  unfold arrowBranch glDrawElements glUniform4f glUniformMatrix4fv
  split <;> (try split) <;> (try split) <;> rfl

theorem arrow_branch_shouldClose (key : Nat) (m : Mat4) (r g b a : ℚ) (s : State) :
    (arrowBranch key m r g b a s).shouldClose = s.shouldClose := by
  unfold arrowBranch glDrawElements glUniform4f glUniformMatrix4fv
  split <;> (try split) <;> (try split) <;> rfl

theorem arrow_branch_programInUse (key : Nat) (m : Mat4) (r g b a : ℚ) (s : State) :
    (arrowBranch key m r g b a s).programInUse = s.programInUse := by
  unfold arrowBranch glDrawElements glUniform4f glUniformMatrix4fv
  split <;> (try split) <;> (try split) <;> rfl

theorem arrow_branch_vaoBound (key : Nat) (m : Mat4) (r g b a : ℚ) (s : State) :
    (arrowBranch key m r g b a s).vaoBound = s.vaoBound := by
  unfold arrowBranch glDrawElements glUniform4f glUniformMatrix4fv
  split <;> (try split) <;> (try split) <;> rfl

theorem arrow_branch_presented (key : Nat) (m : Mat4) (r g b a : ℚ) (s : State) :
    (arrowBranch key m r g b a s).presented = s.presented := by
  unfold arrowBranch glDrawElements glUniform4f glUniformMatrix4fv
  split <;> (try split) <;> (try split) <;> rfl

/-- What an arrow-key branch preserves and what it appends, with the program
current and the vertex array bound. -/
theorem arrow_branch_spec (key : Nat) (m : Mat4) (r g b a : ℚ) (s : State)
    (hp : s.programInUse = true) (hv : s.vaoBound = true) :
    (arrowBranch key m r g b a s).programInUse = true ∧
    (arrowBranch key m r g b a s).vaoBound = true ∧
    (arrowBranch key m r g b a s).backBuffer.draws =
      s.backBuffer.draws ++ (if s.keys key then [⟨m, ⟨r, g, b, a⟩, 6⟩] else []) := by
  rw [arrow_branch key m r g b a s hp hv]
  cases h : s.keys key <;> simp [hp, hv]

/-- The body of `processInput` is its five branches in sequence. -/
theorem processInput_eq (fm : MathFns) (s : State) :
    processInput fm s =
      arrowBranch GLFW_KEY_UP (((Mat4.diag 1).set 1 0 0.5).set 0 1 0.2) 0.5 0.0 0.5 1.0
        (arrowBranch GLFW_KEY_LEFT (scale (Mat4.diag 1) ⟨1.5, 1.5, 1.0⟩) 0.0 1.0 0.0 1.0
          (arrowBranch GLFW_KEY_DOWN (rotate fm (Mat4.diag 1) (radians 45.0) ⟨0.0, 0.0, 1.0⟩)
              1.0 0.0 0.0 0.0
            (arrowBranch GLFW_KEY_RIGHT (translate (Mat4.diag 1) ⟨0.6, 0.0, 0.0⟩) 0.0 0.0 1.0 1.0
              (escapeBranch s)))) := rfl

theorem processInput_keys (fm : MathFns) (s : State) : (processInput fm s).keys = s.keys := by
  rw [processInput_eq]
  simp only [arrow_branch_keys, escape_branch]

theorem processInput_shouldClose (fm : MathFns) (s : State) :
    (processInput fm s).shouldClose = (s.keys GLFW_KEY_ESCAPE || s.shouldClose) := by
  rw [processInput_eq]
  simp only [arrow_branch_shouldClose, escape_branch]

theorem processInput_presented (fm : MathFns) (s : State) :
    (processInput fm s).presented = s.presented := by
  rw [processInput_eq]
  simp only [arrow_branch_presented, escape_branch]

/-- With UP held the `transform` uniform after `processInput` is the UP matrix. -/
theorem processInput_transform_up (fm : MathFns) (s : State)
    (hp : s.programInUse = true) (hv : s.vaoBound = true) (h : s.keys GLFW_KEY_UP = true) :
    (processInput fm s).transform = ((Mat4.diag 1).set 1 0 0.5).set 0 1 0.2 := by
  rw [processInput_eq, arrow_branch]
  · simp only [arrow_branch_keys, escape_branch, h, if_true]
  · simp only [arrow_branch_programInUse, escape_branch, hp]
  · simp only [arrow_branch_vaoBound, escape_branch, hv]

/-- The draws of the held arrow keys, branch by branch. -/
theorem heldArrows_map (fm : MathFns) (s : State) :
    (heldArrows s).map (arrowDraw fm) =
      (if s.keys GLFW_KEY_RIGHT then [rightDraw] else []) ++
      ((if s.keys GLFW_KEY_DOWN then [downDraw fm] else []) ++
      ((if s.keys GLFW_KEY_LEFT then [leftDraw] else []) ++
      (if s.keys GLFW_KEY_UP then [upDraw] else []))) := by
  simp only [heldArrows, arrowKeys, GLFW_KEY_RIGHT, GLFW_KEY_DOWN, GLFW_KEY_LEFT, GLFW_KEY_UP]
  rcases Bool.eq_false_or_eq_true (s.keys 262) with hr | hr <;>
    rcases Bool.eq_false_or_eq_true (s.keys 264) with hd | hd <;>
    rcases Bool.eq_false_or_eq_true (s.keys 263) with hl | hl <;>
    rcases Bool.eq_false_or_eq_true (s.keys 265) with hu | hu <;>
    simp [List.filter_cons, hr, hd, hl, hu, arrowDraw, GLFW_KEY_RIGHT, GLFW_KEY_DOWN,
      GLFW_KEY_LEFT, GLFW_KEY_UP]

/-- The draws `processInput` appends: one per held arrow key, in check order. -/
theorem processInput_draws (fm : MathFns) (s : State)
    (hp : s.programInUse = true) (hv : s.vaoBound = true) :
    (processInput fm s).backBuffer.draws =
      s.backBuffer.draws ++ (heldArrows s).map (arrowDraw fm) := by
  rw [processInput_eq]
  have h0 : (escapeBranch s).programInUse = true ∧ (escapeBranch s).vaoBound = true ∧
      (escapeBranch s).backBuffer.draws = s.backBuffer.draws ∧
      (escapeBranch s).keys = s.keys := by
    rw [escape_branch]; exact ⟨hp, hv, rfl, rfl⟩
  obtain ⟨hp0, hv0, hd0, hk0⟩ := h0
  obtain ⟨hp1, hv1, hd1⟩ := arrow_branch_spec GLFW_KEY_RIGHT
    (translate (Mat4.diag 1) ⟨0.6, 0.0, 0.0⟩) 0.0 0.0 1.0 1.0 _ hp0 hv0
  obtain ⟨hp2, hv2, hd2⟩ := arrow_branch_spec GLFW_KEY_DOWN
    (rotate fm (Mat4.diag 1) (radians 45.0) ⟨0.0, 0.0, 1.0⟩) 1.0 0.0 0.0 0.0 _ hp1 hv1
  obtain ⟨hp3, hv3, hd3⟩ := arrow_branch_spec GLFW_KEY_LEFT
    (scale (Mat4.diag 1) ⟨1.5, 1.5, 1.0⟩) 0.0 1.0 0.0 1.0 _ hp2 hv2
  obtain ⟨-, -, hd4⟩ := arrow_branch_spec GLFW_KEY_UP
    (((Mat4.diag 1).set 1 0 0.5).set 0 1 0.2) 0.5 0.0 0.5 1.0 _ hp3 hv3
  rw [hd4, hd3, hd2, hd1, hd0]
  simp only [arrow_branch_keys, hk0]
  have e0 : (0.0 : ℚ) = 0 := by norm_num
  have e1 : (1.0 : ℚ) = 1 := by norm_num
  have e45 : (45.0 : ℚ) = 45 := by norm_num
  simp only [e0, e1, e45]
  rw [heldArrows_map]
  simp only [rightDraw, downDraw, leftDraw, upDraw, List.append_assoc]

theorem heldArrows_drawReference (s : State) : heldArrows (drawReference s) = heldArrows s := by
  unfold heldArrows
  rw [drawReference_keys]

/-- The draws of a frame: the reference draw, then one per held arrow key. -/
theorem frameDraws_eq (fm : MathFns) (s : State) :
    frameDraws fm s = referenceDraw :: (heldArrows s).map (arrowDraw fm) := by
  unfold frameDraws renderFrame
  rw [processInput_draws fm _ (drawReference_bound s).1 (drawReference_bound s).2,
    drawReference_draws, heldArrows_drawReference]
  rfl

/-- The draws `processInput` issues within a frame: one per held arrow key. -/
theorem inputDraws_eq (fm : MathFns) (s : State) :
    inputDraws fm s = (heldArrows s).map (arrowDraw fm) := by
  unfold inputDraws
  rw [frameDraws_eq, drawReference_draws]
  rfl

theorem mem_heldArrows (s : State) (k : Nat) :
    k ∈ heldArrows s ↔ k ∈ arrowKeys ∧ s.keys k = true := by
  simp [heldArrows, List.mem_filter]

theorem arrowDraw_mem_inputDraws (fm : MathFns) (s : State) (k : Nat)
    (hk : k ∈ arrowKeys) (h : s.keys k = true) : arrowDraw fm k ∈ inputDraws fm s := by
  rw [inputDraws_eq]
  exact List.mem_map_of_mem _ ((mem_heldArrows s k).2 ⟨hk, h⟩)

theorem handleEvent_shouldClose (s : State) (e : Event) (h : s.shouldClose = true) :
    (handleEvent s e).shouldClose = true := by
  cases e <;> simp [handleEvent, glfwSetWindowShouldClose, framebuffer_size_callback,
    glViewport, h]

theorem handleEvent_presented (s : State) (e : Event) :
    (handleEvent s e).presented = s.presented := by
  cases e <;> rfl

/-- Polling never clears the close flag. -/
theorem glfwPollEvents_shouldClose (events : List Event) (s : State)
    (h : s.shouldClose = true) : (glfwPollEvents s events).shouldClose = true := by
  induction events generalizing s with
  | nil => exact h
  | cons e rest ih => exact ih (handleEvent s e) (handleEvent_shouldClose s e h)

theorem glfwPollEvents_presented (events : List Event) (s : State) :
    (glfwPollEvents s events).presented = s.presented := by
  induction events generalizing s with
  | nil => rfl
  | cons e rest ih =>
    show (glfwPollEvents (handleEvent s e) rest).presented = s.presented
    rw [ih, handleEvent_presented]

theorem glfwSwapBuffers_shouldClose (s : State) :
    (glfwSwapBuffers s).shouldClose = s.shouldClose := rfl

theorem renderFrame_keys (fm : MathFns) (s : State) : (renderFrame fm s).keys = s.keys := by
  unfold renderFrame
  rw [processInput_keys, drawReference_keys]

theorem arrow_branch_released (key : Nat) (m : Mat4) (r g b a : ℚ) (s : State)
    (h : s.keys key = false) : arrowBranch key m r g b a s = s := by
  unfold arrowBranch
  rw [glfwGetKey_press, h]
  rfl

/-- With no key down `processInput` does nothing. -/
theorem processInput_idle (fm : MathFns) (s : State) (h : ∀ k, s.keys k = false) :
    processInput fm s = s := by
  have he : escapeBranch s = s := by
    unfold escapeBranch
    rw [glfwGetKey_press, h]
    rfl
  rw [processInput_eq, he, arrow_branch_released _ _ _ _ _ _ s (h _),
    arrow_branch_released _ _ _ _ _ _ s (h _), arrow_branch_released _ _ _ _ _ _ s (h _),
    arrow_branch_released _ _ _ _ _ _ s (h _)]

theorem drawReference_transform (s : State) : (drawReference s).transform = Mat4.diag 1 := by
  simp [drawReference, glDrawElements, glUniform4f, glUniformMatrix4fv, glBindVertexArray,
    glUseProgram, glLineWidth, glClear, glClearColor]
  norm_num

/-- With the close flag set the loop condition fails at once. -/
theorem renderLoop_closed (fm : MathFns) (s : State) (batches : List (List Event))
    (h : s.shouldClose = true) : renderLoop fm s batches = s := by
  cases batches with
  | nil => rfl
  | cons events rest => simp [renderLoop, glfwWindowShouldClose, h]

theorem renderFrame_shouldClose (fm : MathFns) (s : State) :
    (renderFrame fm s).shouldClose = (s.keys GLFW_KEY_ESCAPE || s.shouldClose) := by
  unfold renderFrame
  rw [processInput_shouldClose, drawReference_keys]
  rfl

theorem loopBody_presented (fm : MathFns) (s : State) (events : List Event) :
    (loopBody fm s events).presented = s.presented ++ [(renderFrame fm s).backBuffer] := by
  unfold loopBody
  rw [glfwPollEvents_presented]
  show (renderFrame fm s).presented ++ _ = _
  unfold renderFrame
  rw [processInput_presented]
  rfl

theorem meshVertex_values :
    meshVertex 0 = ⟨0.2, 0.2, 0⟩ ∧ meshVertex 1 = ⟨0.2, -0.2, 0⟩ ∧
    meshVertex 2 = ⟨-0.2, -0.2, 0⟩ ∧ meshVertex 3 = ⟨-0.2, 0.2, 0⟩ := by
  refine ⟨?_, ?_, ?_, ?_⟩ <;> norm_num [meshVertex, vertexAt, vertices]

/-- Rotation about the z-axis as GLM builds it from the identity, for a float
library that normalises the unit axis exactly: the matrix acts on a point by the
usual rotation formulas in the cosine and sine of the angle. -/
theorem rotate_z_apply (fm : MathFns) (angle x y z : ℚ) (h1 : fm.inversesqrt 1 = 1) :
    vertexShader (rotate fm (Mat4.diag 1) angle ⟨0, 0, 1⟩) ⟨x, y, z⟩ =
      ⟨x * fm.cos angle - y * fm.sin angle, x * fm.sin angle + y * fm.cos angle, z, 1⟩ := by
  have hd : Vec3.dot ⟨0, 0, 1⟩ ⟨0, 0, 1⟩ = 1 := by norm_num [Vec3.dot]
  simp only [rotate, normalize, hd, h1, vertexShader, Mat4.mulVec, Mat4.diag, Vec4.scale,
    Vec4.add, Vec3.scale, Vec3.lscale, Vec4.mk.injEq]
  refine ⟨?_, ?_, ?_, ?_⟩ <;> ring

/-! ## Frame structure -/

/-- C1: one frame issues its draws in this order: the reference square (identity
matrix, black, alpha one), then one square for each held key among RIGHT, DOWN, LEFT,
UP in that check order and for no other key.  So with no arrow key held exactly one
square is drawn, with `k` held exactly `1 + k`, and the last draw is the one of the
last-checked held key. -/
theorem frame_draw_order (fm : MathFns) (s : State) :
    frameDraws fm s =
      ⟨Mat4.diag 1, ⟨0, 0, 0, 1⟩, 6⟩ ::
        ([GLFW_KEY_RIGHT, GLFW_KEY_DOWN, GLFW_KEY_LEFT, GLFW_KEY_UP].filter
          (fun k => s.keys k)).map (arrowDraw fm) ∧
    (∀ r c, (Mat4.diag 1).entry r c = identityEntry r c) ∧
    (frameDraws fm s).length = 1 + (heldArrows s).length ∧
    (∀ k, k ∈ heldArrows s ↔ k ∈ arrowKeys ∧ s.keys k = true) ∧
    (heldArrows s = [] → frameDraws fm s = [⟨Mat4.diag 1, ⟨0, 0, 0, 1⟩, 6⟩]) ∧
    (∀ k, (heldArrows s).getLast? = some k →
      (frameDraws fm s).getLast? = some (arrowDraw fm k)) := by
  have h := frameDraws_eq fm s
  refine ⟨h, ?_, ?_, mem_heldArrows s, ?_, ?_⟩
  · intro r c
    fin_cases r <;> fin_cases c <;> rfl
  · rw [h]; simp [Nat.add_comm]
  · intro h0
    rw [h, h0]; rfl
  · intro k hk
    rw [h]
    cases hl : heldArrows s with
    | nil => rw [hl] at hk; cases hk
    | cons a l =>
      rw [hl] at hk
      rw [List.map_cons, List.getLast?_cons_cons, ← List.map_cons, List.getLast?_map, hk]
      rfl

/-- Witness for C1: with no key down the frame is the reference draw alone, and with
UP and RIGHT down the last draw is the one of UP. -/
theorem frame_draw_order_witness :
    heldArrows initState = [] ∧
    frameDraws sampleMath initState = [⟨Mat4.diag 1, ⟨0, 0, 0, 1⟩, 6⟩] ∧
    (heldArrows (holding [GLFW_KEY_UP, GLFW_KEY_RIGHT])).getLast? = some GLFW_KEY_UP ∧
    (frameDraws sampleMath (holding [GLFW_KEY_UP, GLFW_KEY_RIGHT])).getLast? =
      some (arrowDraw sampleMath GLFW_KEY_UP) :=
  ⟨rfl, (frame_draw_order sampleMath initState).2.2.2.2.1 rfl, by decide,
    (frame_draw_order sampleMath (holding [GLFW_KEY_UP, GLFW_KEY_RIGHT])).2.2.2.2.2
      GLFW_KEY_UP (by decide)⟩

/-! ## The four transformations -/

/-- C2: in a frame with RIGHT held, `processInput` issues a draw whose matrix is
`translate(identity, (0.6, 0, 0))`; the vertex shader sends every point `(x, y, z)`,
so each of the four mesh vertices, to `(x + 0.6, y, z)` with `w = 1`; the colour
uniform of that draw is blue, RGBA `(0, 0, 1, 1)`. -/
theorem right_translates (fm : MathFns) (s : State) (h : s.keys GLFW_KEY_RIGHT = true) :
    ∃ d ∈ inputDraws fm s,
      d.transform = translate (Mat4.diag 1) ⟨0.6, 0, 0⟩ ∧
      (∀ x y z : ℚ, vertexShader d.transform ⟨x, y, z⟩ = ⟨x + 0.6, y, z, 1⟩) ∧
      (∀ i : Fin 4, vertexShader d.transform (meshVertex i) =
        ⟨(meshVertex i).x + 0.6, (meshVertex i).y, (meshVertex i).z, 1⟩) ∧
      d.color = ⟨0, 0, 1, 1⟩ := by
  have hx : ∀ x y z : ℚ,
      vertexShader (translate (Mat4.diag 1) ⟨0.6, 0, 0⟩) ⟨x, y, z⟩ = ⟨x + 0.6, y, z, 1⟩ := by
    intro x y z
    simp only [vertexShader, Mat4.mulVec, translate, Mat4.diag, Vec4.scale, Vec4.add,
      Vec4.mk.injEq]
    refine ⟨?_, ?_, ?_, ?_⟩ <;> ring
  refine ⟨rightDraw, ?_, rfl, hx, fun i => hx _ _ _, rfl⟩
  have := arrowDraw_mem_inputDraws fm s GLFW_KEY_RIGHT (by decide) h
  simpa [arrowDraw] using this

/-- Witness for C2: the frame in which only RIGHT is down. -/
theorem right_translates_witness :
    (holding [GLFW_KEY_RIGHT]).keys GLFW_KEY_RIGHT = true ∧
    ∃ d ∈ inputDraws sampleMath (holding [GLFW_KEY_RIGHT]),
      d.transform = translate (Mat4.diag 1) ⟨0.6, 0, 0⟩ ∧
      (∀ x y z : ℚ, vertexShader d.transform ⟨x, y, z⟩ = ⟨x + 0.6, y, z, 1⟩) ∧
      (∀ i : Fin 4, vertexShader d.transform (meshVertex i) =
        ⟨(meshVertex i).x + 0.6, (meshVertex i).y, (meshVertex i).z, 1⟩) ∧
      d.color = ⟨0, 0, 1, 1⟩ :=
  ⟨by decide, right_translates sampleMath (holding [GLFW_KEY_RIGHT]) (by decide)⟩

/-- C3: at the frame in which only DOWN is down, `processInput` issues exactly one
draw and its colour uniform is RGBA `(1, 0, 0, 0)`: red with alpha zero, which is not
the opaque red `(1, 0, 0, 1)`. -/
theorem down_colour_alpha_zero (fm : MathFns) :
    (inputDraws fm (holding [GLFW_KEY_DOWN])).map (fun d => d.color) = [⟨1, 0, 0, 0⟩] ∧
    (inputDraws fm (holding [GLFW_KEY_DOWN])).map (fun d => d.transform) =
      [rotate fm (Mat4.diag 1) (radians 45) ⟨0, 0, 1⟩] ∧
    (⟨1, 0, 0, 0⟩ : Vec4) ≠ ⟨1, 0, 0, 1⟩ := by
  rw [inputDraws_eq]
  have hh : heldArrows (holding [GLFW_KEY_DOWN]) = [GLFW_KEY_DOWN] := by decide
  rw [hh]
  refine ⟨rfl, rfl, by decide⟩

/-- C4: in a frame with LEFT held, `processInput` issues a draw whose matrix is
`scale(identity, (1.5, 1.5, 1.0))`; the vertex shader sends every point `(x, y, z)`,
so each of the four mesh vertices, to `(1.5 x, 1.5 y, z)` with `w = 1`; the colour
uniform of that draw is green, RGBA `(0, 1, 0, 1)`. -/
theorem left_scales (fm : MathFns) (s : State) (h : s.keys GLFW_KEY_LEFT = true) :
    ∃ d ∈ inputDraws fm s,
      d.transform = scale (Mat4.diag 1) ⟨1.5, 1.5, 1.0⟩ ∧
      (∀ x y z : ℚ, vertexShader d.transform ⟨x, y, z⟩ = ⟨1.5 * x, 1.5 * y, z, 1⟩) ∧
      (∀ i : Fin 4, vertexShader d.transform (meshVertex i) =
        ⟨1.5 * (meshVertex i).x, 1.5 * (meshVertex i).y, (meshVertex i).z, 1⟩) ∧
      d.color = ⟨0, 1, 0, 1⟩ := by
  have hx : ∀ x y z : ℚ,
      vertexShader (scale (Mat4.diag 1) ⟨1.5, 1.5, 1⟩) ⟨x, y, z⟩ =
        ⟨1.5 * x, 1.5 * y, z, 1⟩ := by
    intro x y z
    simp only [vertexShader, Mat4.mulVec, scale, Mat4.diag, Vec4.scale, Vec4.add,
      Vec4.mk.injEq]
    refine ⟨?_, ?_, ?_, ?_⟩ <;> ring
  have e1 : (1.0 : ℚ) = 1 := by norm_num
  rw [e1]
  refine ⟨leftDraw, ?_, rfl, hx, fun i => hx _ _ _, rfl⟩
  have := arrowDraw_mem_inputDraws fm s GLFW_KEY_LEFT (by decide) h
  simpa [arrowDraw, GLFW_KEY_LEFT, GLFW_KEY_RIGHT, GLFW_KEY_DOWN] using this

/-- Witness for C4: the frame in which only LEFT is down. -/
theorem left_scales_witness :
    (holding [GLFW_KEY_LEFT]).keys GLFW_KEY_LEFT = true ∧
    ∃ d ∈ inputDraws sampleMath (holding [GLFW_KEY_LEFT]),
      d.transform = scale (Mat4.diag 1) ⟨1.5, 1.5, 1.0⟩ ∧
      (∀ x y z : ℚ, vertexShader d.transform ⟨x, y, z⟩ = ⟨1.5 * x, 1.5 * y, z, 1⟩) ∧
      (∀ i : Fin 4, vertexShader d.transform (meshVertex i) =
        ⟨1.5 * (meshVertex i).x, 1.5 * (meshVertex i).y, (meshVertex i).z, 1⟩) ∧
      d.color = ⟨0, 1, 0, 1⟩ :=
  ⟨by decide, left_scales sampleMath (holding [GLFW_KEY_LEFT]) (by decide)⟩

/-- C5, as stated, fails: in the frame with only UP down the single draw of
`processInput` has `0.2`, not `0.5`, in row 1, column 0 and `0.5`, not `0.2`, in
row 0, column 1. -/
theorem up_entries_counterexample :
    (holding [GLFW_KEY_UP]).keys GLFW_KEY_UP = true ∧
    ∃ d, inputDraws sampleMath (holding [GLFW_KEY_UP]) = [d] ∧
      d.transform.entry 1 0 = 0.2 ∧ d.transform.entry 1 0 ≠ 0.5 ∧
      d.transform.entry 0 1 = 0.5 ∧ d.transform.entry 0 1 ≠ 0.2 := by
  refine ⟨by decide, upDraw, ?_, ?_⟩
  · rw [inputDraws_eq]
    have hh : heldArrows (holding [GLFW_KEY_UP]) = [GLFW_KEY_UP] := by decide
    rw [hh]
    rfl
  · norm_num [upDraw, Mat4.entry, Mat4.get, Mat4.set, Mat4.col, Mat4.setCol, Mat4.diag,
      Vec4.get, Vec4.set]

/-- C5, amended: in a frame with UP held, `processInput` issues a draw whose matrix,
applied as `M · v`, has `0.5` in row 0, column 1 and `0.2` in row 1, column 0 and
the identity entries everywhere else, so it sends `(x, y, z)` to
`(x + 0.5 y, 0.2 x + y, z)` with `w = 1`; this matrix is the `transform` uniform at
the end of the frame; the colour uniform of the draw is purple, RGBA
`(0.5, 0, 0.5, 1)`. -/
theorem up_shears (fm : MathFns) (s : State) (h : s.keys GLFW_KEY_UP = true) :
    ∃ d ∈ inputDraws fm s,
      d.transform.entry 0 1 = 0.5 ∧
      d.transform.entry 1 0 = 0.2 ∧
      (∀ r c : Fin 4, (r, c) ≠ (0, 1) → (r, c) ≠ (1, 0) →
        d.transform.entry r c = identityEntry r c) ∧
      (∀ x y z : ℚ, vertexShader d.transform ⟨x, y, z⟩ = ⟨x + 0.5 * y, 0.2 * x + y, z, 1⟩) ∧
      (renderFrame fm s).transform = d.transform ∧
      d.color = ⟨0.5, 0, 0.5, 1⟩ := by
  refine ⟨upDraw, ?_, ?_, ?_, ?_, ?_, ?_, rfl⟩
  · have := arrowDraw_mem_inputDraws fm s GLFW_KEY_UP (by decide) h
    simpa [arrowDraw, GLFW_KEY_LEFT, GLFW_KEY_RIGHT, GLFW_KEY_DOWN, GLFW_KEY_UP] using this
  · norm_num [upDraw, Mat4.entry, Mat4.get, Mat4.set, Mat4.col, Mat4.setCol, Mat4.diag,
      Vec4.get, Vec4.set]
  · norm_num [upDraw, Mat4.entry, Mat4.get, Mat4.set, Mat4.col, Mat4.setCol, Mat4.diag,
      Vec4.get, Vec4.set]
  · intro r c h01 h10
    fin_cases r <;> fin_cases c <;>
      first
        | exact absurd rfl h01
        | exact absurd rfl h10
        | norm_num [upDraw, Mat4.entry, Mat4.get, Mat4.set, Mat4.col, Mat4.setCol, Mat4.diag,
            Vec4.get, Vec4.set, identityEntry, Fin.ext_iff]
  · intro x y z
    simp only [upDraw, vertexShader, Mat4.mulVec, Mat4.set, Mat4.col, Mat4.setCol, Mat4.diag,
      Vec4.set, Vec4.scale, Vec4.add, Vec4.mk.injEq]
    refine ⟨?_, ?_, ?_, ?_⟩ <;> ring
  · unfold renderFrame
    rw [processInput_transform_up fm _ (drawReference_bound s).1 (drawReference_bound s).2
      (by rw [drawReference_keys]; exact h)]
    rfl

/-- Witness for C5 as amended: the frame in which only UP is down. -/
theorem up_shears_witness :
    (holding [GLFW_KEY_UP]).keys GLFW_KEY_UP = true ∧
    ∃ d ∈ inputDraws sampleMath (holding [GLFW_KEY_UP]),
      d.transform.entry 0 1 = 0.5 ∧
      d.transform.entry 1 0 = 0.2 ∧
      (∀ r c : Fin 4, (r, c) ≠ (0, 1) → (r, c) ≠ (1, 0) →
        d.transform.entry r c = identityEntry r c) ∧
      (∀ x y z : ℚ, vertexShader d.transform ⟨x, y, z⟩ = ⟨x + 0.5 * y, 0.2 * x + y, z, 1⟩) ∧
      (renderFrame sampleMath (holding [GLFW_KEY_UP])).transform = d.transform ∧
      d.color = ⟨0.5, 0, 0.5, 1⟩ :=
  ⟨by decide, up_shears sampleMath (holding [GLFW_KEY_UP]) (by decide)⟩

/-! ## Number of draws -/

/-- C6, as stated, fails: in the frame with RIGHT and DOWN down `processInput`
issues two draws. -/
theorem two_keys_counterexample :
    (inputDraws sampleMath (holding [GLFW_KEY_RIGHT, GLFW_KEY_DOWN])).length = 2 ∧
    ¬ ((inputDraws sampleMath (holding [GLFW_KEY_RIGHT, GLFW_KEY_DOWN])).length = 0 ∨
       (inputDraws sampleMath (holding [GLFW_KEY_RIGHT, GLFW_KEY_DOWN])).length = 1) := by
  have hl : (inputDraws sampleMath (holding [GLFW_KEY_RIGHT, GLFW_KEY_DOWN])).length = 2 := by
    rw [inputDraws_eq, List.length_map]
    decide
  refine ⟨hl, ?_⟩
  rw [hl]
  decide

/-- C6, amended: one iteration of the render loop draws the reference square and then
one transformed square for each held key among RIGHT, DOWN, LEFT, UP: the number of
draw calls `processInput` issues in a frame is the number of these keys that are
held, so between zero and four. -/
theorem input_draw_count (fm : MathFns) (s : State) :
    frameDraws fm s = (drawReference s).backBuffer.draws ++ inputDraws fm s ∧
    (drawReference s).backBuffer.draws = [⟨Mat4.diag 1, ⟨0, 0, 0, 1⟩, 6⟩] ∧
    (inputDraws fm s).length =
      ([GLFW_KEY_RIGHT, GLFW_KEY_DOWN, GLFW_KEY_LEFT, GLFW_KEY_UP].filter
        (fun k => s.keys k)).length ∧
    (inputDraws fm s).length ≤ 4 := by
  have hlen : (inputDraws fm s).length = (heldArrows s).length := by
    rw [inputDraws_eq, List.length_map]
  refine ⟨?_, drawReference_draws s, hlen, ?_⟩
  · rw [frameDraws_eq, inputDraws_eq, drawReference_draws]; rfl
  · rw [hlen]
    exact (List.length_filter_le _ _).trans (by decide)

/-! ## Leaving the loop -/

/-- C7: `processInput` sets the close flag when ESCAPE is pressed and leaves it as it
was otherwise; no step of the loop body clears a set flag; so when ESCAPE is seen in
an iteration that started with the flag clear, the loop stops after that iteration
whatever events follow, and the frame of that iteration is the last one shown. -/
theorem escape_ends_loop (fm : MathFns) (s : State) :
    (processInput fm s).shouldClose =
      (if s.keys GLFW_KEY_ESCAPE then true else s.shouldClose) ∧
    (∀ events, (renderFrame fm s).shouldClose = true →
      (loopBody fm s events).shouldClose = true) ∧
    (∀ events rest, s.shouldClose = false → s.keys GLFW_KEY_ESCAPE = true →
      renderLoop fm s (events :: rest) = loopBody fm s events ∧
      glfwWindowShouldClose (loopBody fm s events) = true ∧
      (renderLoop fm s (events :: rest)).presented =
        s.presented ++ [(renderFrame fm s).backBuffer]) := by
  have hpoll : ∀ events, (renderFrame fm s).shouldClose = true →
      (loopBody fm s events).shouldClose = true := by
    intro events h
    unfold loopBody
    apply glfwPollEvents_shouldClose
    rw [glfwSwapBuffers_shouldClose]
    exact h
  refine ⟨?_, hpoll, ?_⟩
  · rw [processInput_shouldClose]
    cases s.keys GLFW_KEY_ESCAPE <;> rfl
  · intro events rest hopen hesc
    have hframe : (renderFrame fm s).shouldClose = true := by
      rw [renderFrame_shouldClose, hesc]; rfl
    have hclosed := hpoll events hframe
    have hloop : renderLoop fm s (events :: rest) = loopBody fm s events := by
      show (if glfwWindowShouldClose s then s
        else renderLoop fm (loopBody fm s events) rest) = _
      rw [show glfwWindowShouldClose s = false from hopen]
      exact renderLoop_closed fm _ rest hclosed
    refine ⟨hloop, hclosed, ?_⟩
    rw [hloop, loopBody_presented]

/-- Witness for C7: ESCAPE is down on entry to the loop; a key event and a resize
arrive during the first iteration and two more batches are pending. -/
theorem escape_ends_loop_witness :
    (holding [GLFW_KEY_ESCAPE]).shouldClose = false ∧
    (holding [GLFW_KEY_ESCAPE]).keys GLFW_KEY_ESCAPE = true ∧
    renderLoop sampleMath (holding [GLFW_KEY_ESCAPE])
        ([Event.key GLFW_KEY_ESCAPE false, Event.framebufferSize 800 600] ::
          [[Event.key GLFW_KEY_UP true], []]) =
      loopBody sampleMath (holding [GLFW_KEY_ESCAPE])
        [Event.key GLFW_KEY_ESCAPE false, Event.framebufferSize 800 600] ∧
    (renderLoop sampleMath (holding [GLFW_KEY_ESCAPE])
        ([Event.key GLFW_KEY_ESCAPE false, Event.framebufferSize 800 600] ::
          [[Event.key GLFW_KEY_UP true], []])).presented =
      (holding [GLFW_KEY_ESCAPE]).presented ++
        [(renderFrame sampleMath (holding [GLFW_KEY_ESCAPE])).backBuffer] :=
  have h := (escape_ends_loop sampleMath (holding [GLFW_KEY_ESCAPE])).2.2
    [Event.key GLFW_KEY_ESCAPE false, Event.framebufferSize 800 600]
    [[Event.key GLFW_KEY_UP true], []] rfl (by decide)
  ⟨rfl, by decide, h.1, h.2.2⟩

/-! ## Resizing -/

/-- C8: for every width and height `framebuffer_size_callback` sets the viewport to
origin `(0, 0)` with that width and height and changes no other part of the state:
vertex data, index data, both uniforms, the close flag and all the rest are as
before. -/
theorem resize_sets_only_viewport (s : State) (width height : Int) :
    (framebuffer_size_callback s width height).viewport = ⟨0, 0, width, height⟩ ∧
    framebuffer_size_callback s width height =
      { s with viewport := (framebuffer_size_callback s width height).viewport } ∧
    (framebuffer_size_callback s width height).vertices = s.vertices ∧
    (framebuffer_size_callback s width height).indices = s.indices ∧
    (framebuffer_size_callback s width height).transform = s.transform ∧
    (framebuffer_size_callback s width height).color = s.color ∧
    (framebuffer_size_callback s width height).shouldClose = s.shouldClose ∧
    (framebuffer_size_callback s width height).keys = s.keys ∧
    (framebuffer_size_callback s width height).backBuffer = s.backBuffer ∧
    (framebuffer_size_callback s width height).presented = s.presented :=
  ⟨rfl, rfl, rfl, rfl, rfl, rfl, rfl, rfl, rfl, rfl⟩

/-! ## No state carried between frames -/

/-- C10: the draws of a frame, as (matrix, colour) pairs in order, are a function of
the keys held in that frame only: two incoming states with the same key state give
the same draws, whatever their uniforms (and whatever else differs), and overwriting
both uniforms of the incoming state changes nothing. -/
theorem frame_depends_on_keys_only (fm : MathFns) (s₁ s₂ : State) (h : s₁.keys = s₂.keys) :
    frameDraws fm s₁ = frameDraws fm s₂ ∧
    (∀ (m : Mat4) (c : Vec4),
      frameDraws fm { s₁ with transform := m, color := c } = frameDraws fm s₁) := by
  constructor
  · rw [frameDraws_eq, frameDraws_eq, heldArrows, heldArrows, h]
  · intro m c
    rw [frameDraws_eq, frameDraws_eq]
    rfl

/-- Witness for C10: the state left by an iteration with UP down (UP released while
polling) against the state left by an iteration with no key down. -/
theorem frame_depends_on_keys_only_witness :
    (loopBody sampleMath (holding [GLFW_KEY_UP]) [Event.key GLFW_KEY_UP false]).keys =
      (loopBody sampleMath initState []).keys ∧
    (loopBody sampleMath (holding [GLFW_KEY_UP]) [Event.key GLFW_KEY_UP false]).transform ≠
      (loopBody sampleMath initState []).transform ∧
    frameDraws sampleMath
        (loopBody sampleMath (holding [GLFW_KEY_UP]) [Event.key GLFW_KEY_UP false]) =
      frameDraws sampleMath (loopBody sampleMath initState []) :=
  have hk : (loopBody sampleMath (holding [GLFW_KEY_UP]) [Event.key GLFW_KEY_UP false]).keys =
      (loopBody sampleMath initState []).keys := by
    have h1 : (loopBody sampleMath (holding [GLFW_KEY_UP]) [Event.key GLFW_KEY_UP false]).keys =
        fun k => if k = GLFW_KEY_UP then false
          else (renderFrame sampleMath (holding [GLFW_KEY_UP])).keys k := rfl
    have h2 : (loopBody sampleMath initState []).keys =
        (renderFrame sampleMath initState).keys := rfl
    rw [h1, h2, renderFrame_keys, renderFrame_keys]
    funext k
    by_cases hk : k = GLFW_KEY_UP <;> simp [hk, holding, initState]
  have ht : (loopBody sampleMath (holding [GLFW_KEY_UP]) [Event.key GLFW_KEY_UP false]).transform ≠
      (loopBody sampleMath initState []).transform := by
    have h1 : (loopBody sampleMath (holding [GLFW_KEY_UP])
        [Event.key GLFW_KEY_UP false]).transform =
        (renderFrame sampleMath (holding [GLFW_KEY_UP])).transform := rfl
    have h2 : (loopBody sampleMath initState []).transform =
        (renderFrame sampleMath initState).transform := rfl
    rw [h1, h2]
    unfold renderFrame
    rw [processInput_transform_up sampleMath _ (drawReference_bound _).1
        (drawReference_bound _).2 (by rw [drawReference_keys]; decide),
      processInput_idle sampleMath _ (by rw [drawReference_keys]; intro k; rfl),
      drawReference_transform]
    intro h
    have h3 := congrArg (fun m => m.entry 0 1) h
    norm_num [Mat4.entry, Mat4.get, Mat4.set, Mat4.col, Mat4.setCol, Mat4.diag,
      Vec4.get, Vec4.set] at h3
  ⟨hk, ht, (frame_depends_on_keys_only sampleMath _ _ hk).1⟩

/-! ## The mesh -/

/-- C9: the uploaded mesh is a square of side 0.4 centred at the origin in the plane
`z = 0`: the vertices are `(±0.2, ±0.2, 0)`, their centroid is the origin, the four
sides have length 0.4 (squared length `0.4 ^ 2`) and meet at right angles; the six
indices are below 4 and form the triangles `(0, 1, 3)` and `(1, 2, 3)`, which share
the diagonal from vertex 1 to vertex 3, have no common interior point, cover exactly
the square, and have areas summing to 0.16. -/
theorem mesh_is_square :
    vertices.length = 12 ∧
    (List.range 4).map meshVertex =
      [⟨0.2, 0.2, 0⟩, ⟨0.2, -0.2, 0⟩, ⟨-0.2, -0.2, 0⟩, ⟨-0.2, 0.2, 0⟩] ∧
    (((List.range 4).map (fun i => (meshVertex i).x)).sum / 4 = 0 ∧
     ((List.range 4).map (fun i => (meshVertex i).y)).sum / 4 = 0 ∧
     ((List.range 4).map (fun i => (meshVertex i).z)).sum / 4 = 0) ∧
    (∀ i : Fin 4, distSq (meshVertex i) (meshVertex ((i + 1) % 4)) = 0.4 ^ 2) ∧
    (∀ i : Fin 4,
      ((meshVertex ((i + 1) % 4)).sub (meshVertex i)).dot
        ((meshVertex ((i + 2) % 4)).sub (meshVertex ((i + 1) % 4))) = 0) ∧
    indices.length = 6 ∧
    indices.all (fun i => decide (i < 4)) = true ∧
    triangleList indices = [(0, 1, 3), (1, 2, 3)] ∧
    distSq (meshVertex 1) (meshVertex 3) = 2 * 0.4 ^ 2 ∧
    (∀ p : Vec3, ¬ (inInterior (meshVertex 0) (meshVertex 1) (meshVertex 3) p ∧
      inInterior (meshVertex 1) (meshVertex 2) (meshVertex 3) p)) ∧
    (∀ p : Vec3, inCentredSquare 0.4 p ↔
      (inTriangle (meshVertex 0) (meshVertex 1) (meshVertex 3) p ∨
        inTriangle (meshVertex 1) (meshVertex 2) (meshVertex 3) p)) ∧
    triangleArea (meshVertex 0) (meshVertex 1) (meshVertex 3) +
      triangleArea (meshVertex 1) (meshVertex 2) (meshVertex 3) = 0.16 := by
  obtain ⟨h0, h1, h2, h3⟩ := meshVertex_values
  refine ⟨rfl, ?_, ?_, ?_, ?_, rfl, by decide, rfl, ?_, ?_, ?_, ?_⟩
  · simp only [List.range, List.range.loop, List.map, h0, h1, h2, h3]
  · simp only [List.range, List.range.loop, List.map, h0, h1, h2, h3, List.sum_cons,
      List.sum_nil]
    norm_num
  · intro i
    fin_cases i <;> simp [h0, h1, h2, h3, distSq, Vec3.sub, Vec3.dot] <;> norm_num
  · intro i
    fin_cases i <;> simp [h0, h1, h2, h3, Vec3.sub, Vec3.dot]
  · simp only [h1, h3, distSq, Vec3.sub, Vec3.dot]
    norm_num
  · intro p
    simp only [h0, h1, h2, h3, inInterior, edgeFn]
    rintro ⟨ha | ha, hb | hb⟩ <;> obtain ⟨a1, a2, a3⟩ := ha <;> obtain ⟨b1, b2, b3⟩ := hb <;>
      nlinarith
  · intro p
    simp only [h0, h1, h2, h3, inCentredSquare, inTriangle, edgeFn, abs_le]
    constructor
    · rintro ⟨⟨hx1, hx2⟩, hy1, hy2⟩
      rcases le_total 0 (p.x + p.y) with hs | hs
      · left; right
        refine ⟨?_, ?_, ?_⟩ <;> nlinarith
      · right; right
        refine ⟨?_, ?_, ?_⟩ <;> nlinarith
    · rintro ((⟨a1, a2, a3⟩ | ⟨a1, a2, a3⟩) | (⟨a1, a2, a3⟩ | ⟨a1, a2, a3⟩)) <;>
        refine ⟨⟨?_, ?_⟩, ?_, ?_⟩ <;> nlinarith
  · simp only [h0, h1, h2, h3, triangleArea, edgeFn]
    norm_num [abs_of_nonneg, abs_of_nonpos]

end LinearTransformations
